import Mathlib

/-!
Shallow embedding of the per-class fixture lifecycle mechanism of
`google/apputils/basetest.py` (`BeforeAfterTestCaseMeta`).

The metaclass monkey-patches `setUp`, `tearDown` and every test method of each
class in an inheritance chain.  The per-leaf-class state is the class attribute
`__tests_to_run`, which is `None` (the uninitialized sentinel) or a set of the
test names still to run.  We model that state as `Option (Finset String)` and
each (possibly multiply wrapped) method as a state transformer that also emits
the observable events (hook invocations and original method bodies) and reports
whether an exception propagated (`Bool`: `true` = returned normally).

Because the metaclass `__init__` runs once per class of the chain and installs
its wrapper with `setattr` on that very class, the wrapper layer installed at
the leaf class — the one whose captured `test_names` is the set of test names
visible on the leaf — is always the outermost layer of the method an instance
actually calls.  Chains of wrappers are therefore modelled outermost-first,
with the leaf's captured `test_names` at the head.
-/

namespace Basetest

/-- Observable events of a run: invocation of the before-class hook
(`setUpTestCase`), of the after-class hook (`tearDownTestCase`), of the original
`setUp` body, of the original `tearDown` body, and of an original test body. -/
inductive Event where
  | before
  | after
  | setUpBody
  | tearDownBody
  | testBody (name : String)
deriving DecidableEq, Repr

/-- The per-leaf-class `__tests_to_run` attribute: `none` is the `None`
sentinel, `some ts` is the Python set of remaining test names. -/
abbrev S := Option (Finset String)

/-- Result of running a method: emitted events, new `__tests_to_run` state, and
`true` iff no exception propagated. -/
abbrev Res := List Event × S × Bool

/-- A lifecycle method as a state transformer. -/
abbrev Action := S → Res

/-- The original (innermost, unwrapped) `setUp` body: emits its event and
succeeds iff `setUpOk`. -/
def origSetUp (setUpOk : Bool) : Action := fun s => ([Event.setUpBody], s, setUpOk)

/-- The original (innermost, unwrapped) `tearDown` body. -/
def origTearDown (tearDownOk : Bool) : Action := fun s => ([Event.tearDownBody], s, tearDownOk)

/-- The original body of test method `test_name`: emits its event and succeeds
iff `bodyOk`. -/
def origTest (test_name : String) (bodyOk : Bool) : Action :=
  fun s => ([Event.testBody test_name], s, bodyOk)

/-- One wrapping layer installed by `SetSetUpAttr(cls, test_names)`: the wrapped
`setUp` checks `leaf.__tests_to_run`; if it is `None` it first assigns
`leaf.__tests_to_run = set(test_names)`, then calls `self.setUpTestCase()`
(which emits `Event.before` and raises iff `beforeOk = false`), and finally
calls the previous `cls_setUp`.  If the sentinel is already set it just calls
`cls_setUp`. -/
def setUpLayer (beforeOk : Bool) (test_names : Finset String) (cls_setUp : Action) : Action :=
  fun s =>
    match s with
    | none =>
        if beforeOk then
          let r := cls_setUp (some test_names)
          (Event.before :: r.1, r.2.1, r.2.2)
        else
          ([Event.before], some test_names, false)
    | some ts => cls_setUp (some ts)

/-- One wrapping layer installed by `SetTearDownAttr(cls)`: the wrapped
`tearDown` first calls the previous `cls_tearDown`; if that returned normally
and `leaf.__tests_to_run` is a non-`None` empty set, it resets the sentinel to
`None` and then calls `self.tearDownTestCase()` (which emits `Event.after` and
raises iff `afterOk = false`). -/
def tearDownLayer (afterOk : Bool) (cls_tearDown : Action) : Action :=
  fun s =>
    let r := cls_tearDown s
    if r.2.2 then
      match r.2.1 with
      | some ts =>
          if ts = ∅ then (r.1 ++ [Event.after], none, afterOk)
          else (r.1, some ts, true)
      | none => (r.1, none, true)
    else r

/-- One wrapping layer installed by `SetTestMethodAttrs` for test method
`test_name`: it runs `leaf.__tests_to_run.discard(test_name)` and then the
previous `cls_test`.  When the sentinel is still `None`, `discard` on `None`
raises an `AttributeError`, so nothing runs and the exception propagates. -/
def testLayer (test_name : String) (cls_test : Action) : Action :=
  fun s =>
    match s with
    | none => ([], none, false)
    | some ts => cls_test (some (ts.erase test_name))

/-- `setUp` as seen on an instance of a leaf class: the original body wrapped
once per class of the chain, outermost first.  `layers` lists, outermost (leaf)
first, the `test_names` captured by `SetSetUpAttr` at each wrapping level. -/
def setUpChain (beforeOk : Bool) (layers : List (Finset String)) (setUpOk : Bool) : Action :=
  match layers with
  | [] => origSetUp setUpOk
  | t :: rest => setUpLayer beforeOk t (setUpChain beforeOk rest setUpOk)

/-- `tearDown` as seen on an instance of a leaf class: the original body
wrapped `k` times. -/
def tearDownChain (afterOk : Bool) (k : Nat) (tearDownOk : Bool) : Action :=
  match k with
  | 0 => origTearDown tearDownOk
  | k + 1 => tearDownLayer afterOk (tearDownChain afterOk k tearDownOk)

/-- A test method as seen on an instance of a leaf class: the original body
wrapped `k` times. -/
def testChain (test_name : String) (k : Nat) (bodyOk : Bool) : Action :=
  match k with
  | 0 => origTest test_name bodyOk
  | k + 1 => testLayer test_name (testChain test_name k bodyOk)

/-- One setUp/test/tearDown triple for test `test_name` of the leaf class, as a
sequential test runner executes it: the wrapped `setUp` runs first; if it
raises, neither the test method nor `tearDown` run; otherwise the wrapped test
method runs and then the wrapped `tearDown` runs (regardless of the test
outcome).  Returns the emitted events and the final `__tests_to_run` state. -/
def runOneTest (layers : List (Finset String)) (tearK testK : Nat)
    (beforeOk setUpOk bodyOk tearDownOk afterOk : Bool) (test_name : String) (s : S) :
    List Event × S :=
  let r1 := setUpChain beforeOk layers setUpOk s
  if r1.2.2 then
    let r2 := testChain test_name testK bodyOk r1.2.1
    let r3 := tearDownChain afterOk tearK tearDownOk r2.2.1
    (r1.1 ++ r2.1 ++ r3.1, r3.2.1)
  else
    (r1.1, r1.2.1)

/-- A sequential run of the tests named in `order`, one full triple after the
other, with the fixture plumbing (hooks, original `setUp`/`tearDown` bodies)
succeeding and each test body succeeding iff `bodyOk` says so. -/
def runTests (layers : List (Finset String)) (tearK testK : Nat) (bodyOk : String → Bool) :
    List String → S → List Event × S
  | [], s => ([], s)
  | n :: rest, s =>
      let r := runOneTest layers tearK testK true true (bodyOk n) true true n s
      let r2 := runTests layers tearK testK bodyOk rest r.2
      (r.1 ++ r2.1, r2.2)

/-- The event trace produced by draining an already-populated remaining set
whose elements are exactly `order`: every test contributes its triple's bodies,
and the last one additionally fires the after-class hook. -/
def drainTrace : List String → List Event
  | [] => []
  | [n] => [Event.setUpBody, Event.testBody n, Event.tearDownBody, Event.after]
  | n :: m :: rest =>
      Event.setUpBody :: Event.testBody n :: Event.tearDownBody :: drainTrace (m :: rest)

/-- Identifiers for two sibling leaf classes sharing a common base. -/
inductive LeafId where
  | B
  | C
deriving DecidableEq, Repr

/-- Interleaved sequential run of tests of two sibling leaf classes `B` and
`C`.  Each leaf class owns its own `__tests_to_run` class attribute, so the
state is a pair; each executed triple reads and writes only the component of
the leaf class it belongs to.  Events are tagged with the leaf class that
produced them. -/
def runInter (layersB layersC : List (Finset String)) (tearK testK : Nat)
    (bodyOk : LeafId → String → Bool) :
    List (LeafId × String) → S × S → List (LeafId × Event) × (S × S)
  | [], st => ([], st)
  | (LeafId.B, n) :: sched, st =>
      let r := runOneTest layersB tearK testK true true (bodyOk LeafId.B n) true true n st.1
      let r2 := runInter layersB layersC tearK testK bodyOk sched (r.2, st.2)
      (r.1.map (fun e => (LeafId.B, e)) ++ r2.1, r2.2)
  | (LeafId.C, n) :: sched, st =>
      let r := runOneTest layersC tearK testK true true (bodyOk LeafId.C n) true true n st.2
      let r2 := runInter layersB layersC tearK testK bodyOk sched (st.1, r.2)
      (r.1.map (fun e => (LeafId.C, e)) ++ r2.1, r2.2)

/-- The events of the interleaved trace that belong to one leaf class. -/
def sideEvents (cid : LeafId) (es : List (LeafId × Event)) : List Event :=
  (es.filter (fun p => p.1 = cid)).map Prod.snd

/-- The subsequence of the schedule that belongs to one leaf class. -/
def sideTests (cid : LeafId) (sched : List (LeafId × String)) : List String :=
  (sched.filter (fun p => p.1 = cid)).map Prod.snd

/-- Metadata of a Python method: its `__name__`, `__doc__` and `__module__`
attributes. -/
structure MethodMeta where
  name : String
  doc : String
  module : String

/-- A method as stored in a class attribute table: identifying metadata plus
behavior. -/
structure Method where
  meta : MethodMeta
  run : Action

/-- `BeforeAfterTestCaseMeta.SetMethod(cls, method_name, replacement)`: like
`setattr`, but it first copies `__name__`, `__doc__` and `__module__` from the
original `getattr(cls, method_name)` onto the replacement.  The class is
modelled as its attribute table. -/
def SetMethod (cls : String → Method) (method_name : String) (replacement : Action) :
    String → Method :=
  fun attr =>
    if attr = method_name then
      { meta := (cls method_name).meta, run := replacement }
    else cls attr

lemma tearDownChain_zero (afterOk tearDownOk : Bool) :
    tearDownChain afterOk 0 tearDownOk = origTearDown tearDownOk := rfl

lemma tearDownChain_add_one (afterOk tearDownOk : Bool) (k : Nat) :
    tearDownChain afterOk (k + 1) tearDownOk =
      tearDownLayer afterOk (tearDownChain afterOk k tearDownOk) := rfl

lemma testChain_zero (test_name : String) (bodyOk : Bool) :
    testChain test_name 0 bodyOk = origTest test_name bodyOk := rfl

lemma testChain_add_one (test_name : String) (bodyOk : Bool) (k : Nat) :
    testChain test_name (k + 1) bodyOk =
      testLayer test_name (testChain test_name k bodyOk) := rfl

/-- On a populated (non-sentinel) state every `setUp` wrapping layer is a pure
passthrough, so the whole chain behaves like the original body. -/
lemma setUpChain_some (beforeOk setUpOk : Bool) (layers : List (Finset String))
    (ts : Finset String) :
    setUpChain beforeOk layers setUpOk (some ts) = ([Event.setUpBody], some ts, setUpOk) := by
  induction layers with
  | nil => rfl
  | cons t rest ih => simp [setUpChain, setUpLayer, ih]

/-- On the sentinel state the outermost (leaf-level) wrapping layer installs its
own captured `test_names` and fires the before-class hook; the inner layers are
passthrough. -/
lemma setUpChain_none (beforeOk setUpOk : Bool) (t : Finset String)
    (rest : List (Finset String)) :
    setUpChain beforeOk (t :: rest) setUpOk none =
      if beforeOk then ([Event.before, Event.setUpBody], some t, setUpOk)
      else ([Event.before], some t, false) := by
  cases beforeOk <;> simp [setUpChain, setUpLayer, setUpChain_some]

/-- A `setUp` wrapped with extra inner layers behaves exactly like a single
wrap with the outermost captured `test_names`. -/
lemma setUpChain_cons (beforeOk setUpOk : Bool) (t : Finset String)
    (rest : List (Finset String)) (s : S) :
    setUpChain beforeOk (t :: rest) setUpOk s = setUpChain beforeOk [t] setUpOk s := by
  cases s with
  | none => rw [setUpChain_none, setUpChain_none]
  | some ts => rw [setUpChain_some, setUpChain_some]

/-- `tearDown` wrapped `k + 1` times behaves exactly like `tearDown` wrapped
once: the extra outer layers see either a raised exception, the reset sentinel,
or a still-nonempty set, and do nothing. -/
lemma tearDownChain_succ (afterOk tearDownOk : Bool) (k : Nat) (s : S) :
    tearDownChain afterOk (k + 1) tearDownOk s = tearDownChain afterOk 1 tearDownOk s := by
  induction k generalizing s with
  | zero => rfl
  | succ k ih =>
      rw [tearDownChain_add_one]
      show tearDownLayer afterOk (tearDownChain afterOk (k + 1) tearDownOk) s =
        tearDownChain afterOk 1 tearDownOk s
      unfold tearDownLayer
      rw [ih]
      cases s with
      | none => cases tearDownOk <;> cases afterOk <;>
          simp [tearDownChain, tearDownLayer, origTearDown]
      | some ts =>
          by_cases hts : ts = ∅ <;> cases tearDownOk <;> cases afterOk <;>
            simp [tearDownChain, tearDownLayer, origTearDown, hts]

/-- A test method wrapped `k + 1` times behaves exactly like the test method
wrapped once: extra `discard` calls of the same name are idempotent. -/
lemma testChain_succ (test_name : String) (bodyOk : Bool) (k : Nat) (s : S) :
    testChain test_name (k + 1) bodyOk s = testChain test_name 1 bodyOk s := by
  induction k generalizing s with
  | zero => rfl
  | succ k ih =>
      cases s with
      | none => rfl
      | some ts =>
          show testChain test_name (k + 1) bodyOk (some (ts.erase test_name)) =
            testChain test_name 1 bodyOk (some ts)
          rw [ih]
          simp [testChain, testLayer, origTest, Finset.erase_idem]

/-- Running one triple from a populated state: the set loses the test's name;
the after-class hook fires iff that made it empty, in which case the sentinel
is reset. -/
lemma runOneTest_some (layers : List (Finset String)) (tearK testK : Nat)
    (htear : 1 ≤ tearK) (htest : 1 ≤ testK) (bodyOk : Bool) (n : String) (ts : Finset String) :
    runOneTest layers tearK testK true true bodyOk true true n (some ts) =
      (Event.setUpBody :: Event.testBody n :: Event.tearDownBody ::
        (if ts.erase n = ∅ then [Event.after] else []),
       if ts.erase n = ∅ then none else some (ts.erase n)) := by
  obtain ⟨tk, rfl⟩ : ∃ m, tearK = m + 1 := ⟨tearK - 1, by omega⟩
  obtain ⟨ek, rfl⟩ : ∃ m, testK = m + 1 := ⟨testK - 1, by omega⟩
  rw [runOneTest]
  rw [setUpChain_some]
  simp only [testChain_succ, tearDownChain_succ]
  by_cases h : ts.erase n = ∅ <;>
    simp [testChain, testLayer, origTest, tearDownChain, tearDownLayer, origTearDown, h]

/-- Running one triple from the sentinel state: identical to running it from
the populated state `some t` (where `t` is the leaf level's captured
`test_names`), except that the before-class hook fires first. -/
lemma runOneTest_none (t : Finset String) (rest : List (Finset String)) (tearK testK : Nat)
    (bodyOk : Bool) (n : String) :
    runOneTest (t :: rest) tearK testK true true bodyOk true true n none =
      (Event.before ::
        (runOneTest (t :: rest) tearK testK true true bodyOk true true n (some t)).1,
       (runOneTest (t :: rest) tearK testK true true bodyOk true true n (some t)).2) := by
  rw [runOneTest, runOneTest]
  rw [setUpChain_none, setUpChain_some]
  simp

/-- Draining an already-populated set: running tests `order` (distinct names,
together forming exactly the current remaining set) produces `drainTrace order`
and ends with the sentinel reset. -/
lemma runTests_drain (layers : List (Finset String)) (tearK testK : Nat)
    (htear : 1 ≤ tearK) (htest : 1 ≤ testK) (bodyOk : String → Bool) :
    ∀ (order : List String) (ts : Finset String), order ≠ [] → order.Nodup →
      order.toFinset = ts →
      runTests layers tearK testK bodyOk order (some ts) = (drainTrace order, none) := by
  intro order
  induction order with
  | nil => intro ts h; exact absurd rfl h
  | cons n rest ih =>
      intro ts _ hnd hts
      have hn : n ∉ rest := (List.nodup_cons.mp hnd).1
      have hnf : n ∉ rest.toFinset := fun h => hn (List.mem_toFinset.mp h)
      have hts' : ts = insert n rest.toFinset := by
        rw [← hts, List.toFinset_cons]
      have herase : ts.erase n = rest.toFinset := by
        rw [hts', Finset.erase_insert hnf]
      cases rest with
      | nil =>
          have hempty : ts.erase n = ∅ := by simpa using herase
          rw [runTests, runOneTest_some layers tearK testK htear htest (bodyOk n) n ts]
          simp [hempty, runTests, drainTrace]
      | cons m rest' =>
          have hne : ts.erase n ≠ ∅ := by
            rw [herase]
            exact Finset.ne_empty_of_mem (List.mem_toFinset.mpr (List.mem_cons_self m rest'))
          rw [runTests, runOneTest_some layers tearK testK htear htest (bodyOk n) n ts]
          simp only [hne, if_neg, if_false]
          rw [herase, ih ((m :: rest').toFinset) (by simp) (List.nodup_cons.mp hnd).2 rfl]
          simp [drainTrace]

/-- A nonempty run that starts at the sentinel state is the same run as from
the freshly populated state `some t`, with the before-class hook prepended. -/
lemma runTests_none_cons (t : Finset String) (rest : List (Finset String))
    (tearK testK : Nat) (bodyOk : String → Bool) (n : String) (order' : List String) :
    runTests (t :: rest) tearK testK bodyOk (n :: order') none =
      (Event.before :: (runTests (t :: rest) tearK testK bodyOk (n :: order') (some t)).1,
       (runTests (t :: rest) tearK testK bodyOk (n :: order') (some t)).2) := by
  simp only [runTests]
  rw [runOneTest_none t rest tearK testK (bodyOk n) n]
  simp

/-- A full run from the sentinel state: the before-class hook fires first, then
the drain trace of the executed order, and the final state is the sentinel. -/
lemma runTests_from_sentinel (t : Finset String) (rest : List (Finset String))
    (tearK testK : Nat) (htear : 1 ≤ tearK) (htest : 1 ≤ testK) (bodyOk : String → Bool)
    (order : List String) (hne : order ≠ []) (hnd : order.Nodup) (hts : order.toFinset = t) :
    runTests (t :: rest) tearK testK bodyOk order none =
      (Event.before :: drainTrace order, none) := by
  cases order with
  | nil => exact absurd rfl hne
  | cons n rest' =>
      have hdrain : runTests (t :: rest) tearK testK bodyOk (n :: rest') (some t) =
          (drainTrace (n :: rest'), none) :=
        runTests_drain (t :: rest) tearK testK htear htest bodyOk (n :: rest') t hne hnd hts
      rw [runTests_none_cons, hdrain]

/-- The drain trace never contains a before-class hook invocation. -/
lemma drainTrace_count_before (order : List String) :
    (drainTrace order).count Event.before = 0 := by
  induction order with
  | nil => rfl
  | cons n rest ih =>
      cases rest with
      | nil => simp [drainTrace, List.count_cons]
      | cons m rest' =>
          rw [drainTrace]
          simp [List.count_cons, ih]

/-- The drain trace of a nonempty order contains exactly one after-class hook
invocation. -/
lemma drainTrace_count_after : ∀ (order : List String), order ≠ [] →
    (drainTrace order).count Event.after = 1 := by
  intro order
  induction order with
  | nil => intro h; exact absurd rfl h
  | cons n rest ih =>
      intro _
      cases rest with
      | nil => simp [drainTrace, List.count_cons]
      | cons m rest' =>
          rw [drainTrace]
          simp [List.count_cons, ih (by simp)]

/-- The drain trace of a nonempty order starts with a `setUp` body and ends
with the after-class hook. -/
lemma drainTrace_decomp : ∀ (order : List String), order ≠ [] →
    ∃ mid, drainTrace order = Event.setUpBody :: mid ++ [Event.after] := by
  intro order
  induction order with
  | nil => intro h; exact absurd rfl h
  | cons n rest ih =>
      intro _
      cases rest with
      | nil => exact ⟨[Event.testBody n, Event.tearDownBody], rfl⟩
      | cons m rest' =>
          obtain ⟨mid, hm⟩ := ih (by simp)
          refine ⟨Event.testBody n :: Event.tearDownBody :: Event.setUpBody :: mid, ?_⟩
          rw [drainTrace, hm]
          simp

lemma sideEvents_nil (cid : LeafId) : sideEvents cid [] = [] := rfl

lemma sideEvents_append (cid : LeafId) (l1 l2 : List (LeafId × Event)) :
    sideEvents cid (l1 ++ l2) = sideEvents cid l1 ++ sideEvents cid l2 := by
  simp [sideEvents, List.filter_append]

/-- Projecting a block of events tagged with the same leaf class recovers the
block. -/
lemma sideEvents_tag_self (cid : LeafId) (l : List Event) :
    sideEvents cid (l.map (fun e => (cid, e))) = l := by
  induction l with
  | nil => rfl
  | cons e l ih =>
      simp only [List.map_cons]
      simp [sideEvents, List.filter_cons] at ih ⊢
      exact ih

/-- Projecting a block of events tagged with the other leaf class yields
nothing. -/
lemma sideEvents_tag_other (cid cid' : LeafId) (h : ¬ cid' = cid) (l : List Event) :
    sideEvents cid (l.map (fun e => (cid', e))) = [] := by
  induction l with
  | nil => rfl
  | cons e l ih =>
      simp only [List.map_cons]
      simp [sideEvents, List.filter_cons, h] at ih ⊢

lemma sideTests_nil (cid : LeafId) : sideTests cid [] = [] := rfl

lemma sideTests_cons_self (cid : LeafId) (n : String) (sched : List (LeafId × String)) :
    sideTests cid ((cid, n) :: sched) = n :: sideTests cid sched := by
  simp [sideTests, List.filter_cons]

lemma sideTests_cons_other (cid cid' : LeafId) (h : ¬ cid' = cid) (n : String)
    (sched : List (LeafId × String)) :
    sideTests cid ((cid', n) :: sched) = sideTests cid sched := by
  simp [sideTests, List.filter_cons, h]

/-- An interleaved run of two sibling leaf classes projects, per leaf class,
onto exactly the single-class sequential run of that class's subsequence of
the schedule, acting on that class's own component of the state: the two leaf
classes never touch each other's `__tests_to_run`. -/
lemma runInter_proj (layersB layersC : List (Finset String)) (tearK testK : Nat)
    (bodyOk : LeafId → String → Bool) :
    ∀ (sched : List (LeafId × String)) (st : S × S),
      sideEvents LeafId.B (runInter layersB layersC tearK testK bodyOk sched st).1 =
          (runTests layersB tearK testK (bodyOk LeafId.B) (sideTests LeafId.B sched) st.1).1
      ∧ sideEvents LeafId.C (runInter layersB layersC tearK testK bodyOk sched st).1 =
          (runTests layersC tearK testK (bodyOk LeafId.C) (sideTests LeafId.C sched) st.2).1
      ∧ (runInter layersB layersC tearK testK bodyOk sched st).2.1 =
          (runTests layersB tearK testK (bodyOk LeafId.B) (sideTests LeafId.B sched) st.1).2
      ∧ (runInter layersB layersC tearK testK bodyOk sched st).2.2 =
          (runTests layersC tearK testK (bodyOk LeafId.C) (sideTests LeafId.C sched) st.2).2 := by
  intro sched
  induction sched with
  | nil =>
      intro st
      simp [runInter, sideEvents_nil, sideTests_nil, runTests]
  | cons p sched ih =>
      intro st
      obtain ⟨cid, n⟩ := p
      cases cid with
      | B =>
          obtain ⟨ihB, ihC, ihsB, ihsC⟩ :=
            ih ((runOneTest layersB tearK testK true true (bodyOk LeafId.B n) true true n st.1).2,
                st.2)
          refine ⟨?_, ?_, ?_, ?_⟩
          · rw [show runInter layersB layersC tearK testK bodyOk ((LeafId.B, n) :: sched) st =
                (((runOneTest layersB tearK testK true true (bodyOk LeafId.B n) true true n
                      st.1).1.map (fun e => (LeafId.B, e)) ++
                  (runInter layersB layersC tearK testK bodyOk sched
                    ((runOneTest layersB tearK testK true true (bodyOk LeafId.B n) true true n
                        st.1).2, st.2)).1),
                 (runInter layersB layersC tearK testK bodyOk sched
                    ((runOneTest layersB tearK testK true true (bodyOk LeafId.B n) true true n
                        st.1).2, st.2)).2) from rfl]
            rw [sideEvents_append, sideEvents_tag_self, sideTests_cons_self, runTests]
            simp only []
            rw [ihB]
          · rw [show runInter layersB layersC tearK testK bodyOk ((LeafId.B, n) :: sched) st =
                (((runOneTest layersB tearK testK true true (bodyOk LeafId.B n) true true n
                      st.1).1.map (fun e => (LeafId.B, e)) ++
                  (runInter layersB layersC tearK testK bodyOk sched
                    ((runOneTest layersB tearK testK true true (bodyOk LeafId.B n) true true n
                        st.1).2, st.2)).1),
                 (runInter layersB layersC tearK testK bodyOk sched
                    ((runOneTest layersB tearK testK true true (bodyOk LeafId.B n) true true n
                        st.1).2, st.2)).2) from rfl]
            rw [sideEvents_append, sideEvents_tag_other LeafId.C LeafId.B (by simp),
              sideTests_cons_other LeafId.C LeafId.B (by simp)]
            simpa using ihC
          · rw [sideTests_cons_self, runTests]
            exact ihsB
          · rw [sideTests_cons_other LeafId.C LeafId.B (by simp)]
            exact ihsC
      | C =>
          obtain ⟨ihB, ihC, ihsB, ihsC⟩ :=
            ih (st.1,
                (runOneTest layersC tearK testK true true (bodyOk LeafId.C n) true true n st.2).2)
          refine ⟨?_, ?_, ?_, ?_⟩
          · rw [show runInter layersB layersC tearK testK bodyOk ((LeafId.C, n) :: sched) st =
                (((runOneTest layersC tearK testK true true (bodyOk LeafId.C n) true true n
                      st.2).1.map (fun e => (LeafId.C, e)) ++
                  (runInter layersB layersC tearK testK bodyOk sched
                    (st.1, (runOneTest layersC tearK testK true true (bodyOk LeafId.C n) true true
                        n st.2).2)).1),
                 (runInter layersB layersC tearK testK bodyOk sched
                    (st.1, (runOneTest layersC tearK testK true true (bodyOk LeafId.C n) true true
                        n st.2).2)).2) from rfl]
            rw [sideEvents_append, sideEvents_tag_other LeafId.B LeafId.C (by simp),
              sideTests_cons_other LeafId.B LeafId.C (by simp)]
            simpa using ihB
          · rw [show runInter layersB layersC tearK testK bodyOk ((LeafId.C, n) :: sched) st =
                (((runOneTest layersC tearK testK true true (bodyOk LeafId.C n) true true n
                      st.2).1.map (fun e => (LeafId.C, e)) ++
                  (runInter layersB layersC tearK testK bodyOk sched
                    (st.1, (runOneTest layersC tearK testK true true (bodyOk LeafId.C n) true true
                        n st.2).2)).1),
                 (runInter layersB layersC tearK testK bodyOk sched
                    (st.1, (runOneTest layersC tearK testK true true (bodyOk LeafId.C n) true true
                        n st.2).2)).2) from rfl]
            rw [sideEvents_append, sideEvents_tag_self, sideTests_cons_self, runTests]
            simp only []
            rw [ihC]
          · rw [sideTests_cons_other LeafId.B LeafId.C (by simp)]
            exact ihsB
          · rw [sideTests_cons_self, runTests]
            exact ihsC

/-- C1: for a leaf class whose visible test methods are exactly the distinct
names in `order`, running all its tests sequentially in that (arbitrary) order
from the sentinel state fires the before-class hook exactly once — as the very
first event, before the first original `setUp` body — and the after-class hook
exactly once — as the very last event, after the last original `tearDown`
body — regardless of the ancestor wrapping depths of `setUp` (`rest`),
`tearDown` (`tearK`) and the test methods (`testK`), and regardless of which
test bodies raise (`bodyOk`). -/
theorem C1_before_after_hooks_fire_exactly_once (t : Finset String)
    (rest : List (Finset String)) (tearK testK : Nat) (htear : 1 ≤ tearK) (htest : 1 ≤ testK)
    (bodyOk : String → Bool) (order : List String)
    (hne : order ≠ []) (hnd : order.Nodup) (hts : order.toFinset = t) :
    ((runTests (t :: rest) tearK testK bodyOk order none).1.count Event.before = 1
      ∧ (runTests (t :: rest) tearK testK bodyOk order none).1.count Event.after = 1)
    ∧ (∃ mid, (runTests (t :: rest) tearK testK bodyOk order none).1 =
        Event.before :: Event.setUpBody :: mid ++ [Event.after])
    ∧ (runTests (t :: rest) tearK testK bodyOk order none).2 = none := by
  rw [runTests_from_sentinel t rest tearK testK htear htest bodyOk order hne hnd hts]
  refine ⟨⟨?_, ?_⟩, ?_, rfl⟩
  · simp [List.count_cons, drainTrace_count_before order]
  · simp [List.count_cons, drainTrace_count_after order hne]
  · obtain ⟨mid, hm⟩ := drainTrace_decomp order hne
    refine ⟨mid, ?_⟩
    show Event.before :: drainTrace order = Event.before :: Event.setUpBody :: mid ++ [Event.after]
    rw [hm]
    simp

theorem C1_before_after_hooks_fire_exactly_once_witness :
    ((runTests [({"t1", "t2"} : Finset String), ∅] 2 1 (fun n => n != "t1")
        ["t2", "t1"] none).1.count Event.before = 1
      ∧ (runTests [({"t1", "t2"} : Finset String), ∅] 2 1 (fun n => n != "t1")
        ["t2", "t1"] none).1.count Event.after = 1)
    ∧ (∃ mid, (runTests [({"t1", "t2"} : Finset String), ∅] 2 1 (fun n => n != "t1")
        ["t2", "t1"] none).1 = Event.before :: Event.setUpBody :: mid ++ [Event.after])
    ∧ (runTests [({"t1", "t2"} : Finset String), ∅] 2 1 (fun n => n != "t1")
        ["t2", "t1"] none).2 = none :=
  C1_before_after_hooks_fire_exactly_once {"t1", "t2"} [∅] 2 1 (by decide) (by decide)
    (fun n => n != "t1") ["t2", "t1"] (by decide) (by decide) (by decide)

/-- C2 (counterexample): after the before-class hook raises during the wrapped
`setUp` of the first test of a two-test leaf class, the claim asserts the
remaining set is still the sentinel and the next test's wrapped `setUp`
attempts the hook again; in fact the set has already been advanced to the
populated set, and the next test's wrapped `setUp` fires no before-class hook
at all. -/
theorem C2_before_hook_failure_counterexample :
    ¬ ((runOneTest [({"testA", "testB"} : Finset String)] 1 1 false true true true true
        "testA" none).2 = none)
    ∧ (runOneTest [({"testA", "testB"} : Finset String)] 1 1 true true true true true
        "testB"
        (runOneTest [({"testA", "testB"} : Finset String)] 1 1 false true true true true
          "testA" none).2).1.count Event.before = 0 := by
  decide

/-- C2 (amended): if the before-class hook raises during the wrapped `setUp` of
a test of a leaf class, the hook fires and the exception propagates as a setup
failure for that test (neither the original `setUp` body nor the test method
nor `tearDown` run), but the leaf class's remaining set was already advanced to
the populated set of the leaf's visible test names before the hook was invoked;
hence the wrapped `setUp` of the next test of the same leaf class finds the set
populated and does not attempt the before-class hook again. -/
theorem C2_before_hook_failure_amended (t : Finset String) (rest : List (Finset String))
    (tearK testK : Nat) (setUpOk bodyOk : Bool) (n : String) :
    setUpChain false (t :: rest) setUpOk none = ([Event.before], some t, false)
    ∧ runOneTest (t :: rest) tearK testK false true bodyOk true true n none
        = ([Event.before], some t)
    ∧ ∀ (beforeOk setUpOk2 : Bool),
        (setUpChain beforeOk (t :: rest) setUpOk2 (some t)).1.count Event.before = 0 := by
  refine ⟨?_, ?_, ?_⟩
  · rw [setUpChain_none]
    simp
  · rw [runOneTest, setUpChain_none]
    simp
  · intro beforeOk setUpOk2
    rw [setUpChain_some]
    simp [List.count_cons]

/-- C3: when the wrapped `setUp` runs with the leaf class's remaining set at
the sentinel, the set it installs is exactly the leaf level's captured set `t`
of test names visible on the runtime (leaf) class — the head of the wrapping
chain — never one of the possibly smaller sets captured at ancestor levels
(`rest`), whatever the hook and `setUp` outcomes. -/
theorem C3_setUp_installs_leaf_visible_tests (beforeOk setUpOk : Bool) (t : Finset String)
    (rest : List (Finset String)) :
    (setUpChain beforeOk (t :: rest) setUpOk none).2.1 = some t := by
  rw [setUpChain_none]
  cases beforeOk <;> simp

/-- C4: the wrapped `tearDown` always runs the original `tearDown` body first;
when the body returns normally, the after-class hook fires (exactly once) iff
the remaining set is non-sentinel and empty, and in that case the sentinel is
reset regardless of the hook's outcome, the hook's exception (if any)
propagating as the teardown result. -/
theorem C4_tearDown_body_first_reset_unconditional (k : Nat) (hk : 1 ≤ k)
    (afterOk tearDownOk : Bool) (s : S) :
    ((tearDownChain afterOk k tearDownOk s).1.head? = some Event.tearDownBody)
    ∧ (tearDownOk = true →
        (((tearDownChain afterOk k tearDownOk s).1.count Event.after = 1) ↔
          s = some (∅ : Finset String)))
    ∧ (tearDownOk = true → s = some (∅ : Finset String) →
        (tearDownChain afterOk k tearDownOk s).2.1 = none
        ∧ (tearDownChain afterOk k tearDownOk s).2.2 = afterOk) := by
  obtain ⟨m, rfl⟩ : ∃ m, k = m + 1 := ⟨k - 1, by omega⟩
  simp only [tearDownChain_succ]
  cases s with
  | none =>
      cases tearDownOk <;> cases afterOk <;>
        simp [tearDownChain, tearDownLayer, origTearDown, List.count_cons]
  | some ts =>
      by_cases hts : ts = ∅ <;> cases tearDownOk <;> cases afterOk <;>
        simp [tearDownChain, tearDownLayer, origTearDown, hts, List.count_cons]

theorem C4_tearDown_body_first_reset_unconditional_witness :
    ((tearDownChain false 2 true (some (∅ : Finset String))).1.head? =
        some Event.tearDownBody)
    ∧ (true = true →
        (((tearDownChain false 2 true (some (∅ : Finset String))).1.count Event.after = 1) ↔
          some (∅ : Finset String) = some (∅ : Finset String)))
    ∧ (true = true → some (∅ : Finset String) = some (∅ : Finset String) →
        (tearDownChain false 2 true (some (∅ : Finset String))).2.1 = none
        ∧ (tearDownChain false 2 true (some (∅ : Finset String))).2.2 = false) :=
  C4_tearDown_body_first_reset_unconditional 2 (by decide) false true (some ∅)

/-- C5: a wrapped test method first removes its own name from the leaf class's
remaining set — an idempotent removal that is a no-op when the name is
absent — and only then runs the original test body, so the name is consumed
even when the body raises; consequently, after a failing test body the
subsequent `tearDown` still fires the after-class hook exactly when that test
was the last remaining one. -/
theorem C5_test_method_consumes_name_first (k : Nat) (hk : 1 ≤ k) (test_name : String)
    (ts : Finset String) (bodyOk : Bool) :
    testChain test_name k bodyOk (some ts) =
      ([Event.testBody test_name], some (ts.erase test_name), bodyOk)
    ∧ (test_name ∉ ts →
        testChain test_name k bodyOk (some ts) =
          ([Event.testBody test_name], some ts, bodyOk))
    ∧ ((tearDownChain true k true (testChain test_name k false (some ts)).2.1).1.count
          Event.after = if ts.erase test_name = ∅ then 1 else 0) := by
  obtain ⟨m, rfl⟩ : ∃ m, k = m + 1 := ⟨k - 1, by omega⟩
  have h1 : ∀ b : Bool, testChain test_name (m + 1) b (some ts) =
      ([Event.testBody test_name], some (ts.erase test_name), b) := by
    intro b
    rw [testChain_succ]
    simp [testChain, testLayer, origTest]
  refine ⟨h1 bodyOk, ?_, ?_⟩
  · intro hmem
    rw [h1 bodyOk, Finset.erase_eq_of_not_mem hmem]
  · rw [h1 false]
    simp only [tearDownChain_succ]
    by_cases h : ts.erase test_name = ∅ <;>
      simp [tearDownChain, tearDownLayer, origTearDown, h, List.count_cons]

theorem C5_test_method_consumes_name_first_witness :
    testChain "testOne" 1 false (some ({"testOne"} : Finset String)) =
      ([Event.testBody "testOne"], some (({"testOne"} : Finset String).erase "testOne"), false)
    ∧ ("testOne" ∉ ({"testOne"} : Finset String) →
        testChain "testOne" 1 false (some ({"testOne"} : Finset String)) =
          ([Event.testBody "testOne"], some ({"testOne"} : Finset String), false))
    ∧ ((tearDownChain true 1 true
          (testChain "testOne" 1 false (some ({"testOne"} : Finset String))).2.1).1.count
          Event.after =
        if ({"testOne"} : Finset String).erase "testOne" = ∅ then 1 else 0) :=
  C5_test_method_consumes_name_first 1 (by decide) "testOne" {"testOne"} false

/-- C6: wrapping the same `setUp`, `tearDown` or test method `K ≥ 1` times (one
wrap per level of an inheritance chain) is observationally identical to
wrapping it once: same emitted events, same final remaining-set state and same
exception outcome, from every starting state. -/
theorem C6_multiple_wrapping_idempotent (K : Nat) (hK : 1 ≤ K) (t : Finset String)
    (test_name : String) (beforeOk setUpOk afterOk tearDownOk bodyOk : Bool) (s : S) :
    setUpChain beforeOk (List.replicate K t) setUpOk s = setUpChain beforeOk [t] setUpOk s
    ∧ tearDownChain afterOk K tearDownOk s = tearDownChain afterOk 1 tearDownOk s
    ∧ testChain test_name K bodyOk s = testChain test_name 1 bodyOk s := by
  obtain ⟨m, rfl⟩ : ∃ m, K = m + 1 := ⟨K - 1, by omega⟩
  refine ⟨?_, tearDownChain_succ afterOk tearDownOk m s, testChain_succ test_name bodyOk m s⟩
  rw [List.replicate_succ]
  exact setUpChain_cons beforeOk setUpOk t (List.replicate m t) s

theorem C6_multiple_wrapping_idempotent_witness :
    setUpChain true (List.replicate 3 ({"t1"} : Finset String)) true none =
      setUpChain true [({"t1"} : Finset String)] true none
    ∧ tearDownChain false 3 true none = tearDownChain false 1 true none
    ∧ testChain "t1" 3 false none = testChain "t1" 1 false none :=
  C6_multiple_wrapping_idempotent 3 (by decide) {"t1"} "t1" true true false true false none

/-- C7: two sibling leaf classes `B` and `C`, each instrumented with its own
visible test set at the head of its own wrapping chain, run interleaved in any
sequential schedule: each leaf class gets exactly one before-class and exactly
one after-class hook firing of its own, and both end with their own sentinel
reset — one class's firings and state transitions never satisfy or suppress
the other's. -/
theorem C7_sibling_leaf_isolation (tB tC : Finset String)
    (restB restC : List (Finset String)) (tearK testK : Nat)
    (htear : 1 ≤ tearK) (htest : 1 ≤ testK) (bodyOk : LeafId → String → Bool)
    (sched : List (LeafId × String))
    (hBne : sideTests LeafId.B sched ≠ []) (hBnd : (sideTests LeafId.B sched).Nodup)
    (hBts : (sideTests LeafId.B sched).toFinset = tB)
    (hCne : sideTests LeafId.C sched ≠ []) (hCnd : (sideTests LeafId.C sched).Nodup)
    (hCts : (sideTests LeafId.C sched).toFinset = tC) :
    ((sideEvents LeafId.B (runInter (tB :: restB) (tC :: restC) tearK testK bodyOk sched
          (none, none)).1).count Event.before = 1
      ∧ (sideEvents LeafId.B (runInter (tB :: restB) (tC :: restC) tearK testK bodyOk sched
          (none, none)).1).count Event.after = 1)
    ∧ ((sideEvents LeafId.C (runInter (tB :: restB) (tC :: restC) tearK testK bodyOk sched
          (none, none)).1).count Event.before = 1
      ∧ (sideEvents LeafId.C (runInter (tB :: restB) (tC :: restC) tearK testK bodyOk sched
          (none, none)).1).count Event.after = 1)
    ∧ (runInter (tB :: restB) (tC :: restC) tearK testK bodyOk sched (none, none)).2 =
        (none, none) := by
  obtain ⟨hB, hC, hsB, hsC⟩ :=
    runInter_proj (tB :: restB) (tC :: restC) tearK testK bodyOk sched (none, none)
  have hrB := runTests_from_sentinel tB restB tearK testK htear htest (bodyOk LeafId.B)
    (sideTests LeafId.B sched) hBne hBnd hBts
  have hrC := runTests_from_sentinel tC restC tearK testK htear htest (bodyOk LeafId.C)
    (sideTests LeafId.C sched) hCne hCnd hCts
  dsimp only at hB hC hsB hsC
  rw [hrB] at hB hsB
  rw [hrC] at hC hsC
  dsimp only at hB hC hsB hsC
  refine ⟨⟨?_, ?_⟩, ⟨?_, ?_⟩, ?_⟩
  · rw [hB]
    simp [List.count_cons, drainTrace_count_before]
  · rw [hB]
    simp [List.count_cons, drainTrace_count_after _ hBne]
  · rw [hC]
    simp [List.count_cons, drainTrace_count_before]
  · rw [hC]
    simp [List.count_cons, drainTrace_count_after _ hCne]
  · exact Prod.ext hsB hsC

theorem C7_sibling_leaf_isolation_witness :
    ((sideEvents LeafId.B (runInter [({"t1", "t2", "t3"} : Finset String), ∅]
          [({"u1", "u2"} : Finset String)] 1 1 (fun _ _ => true)
          [(LeafId.B, "t1"), (LeafId.C, "u1"), (LeafId.B, "t2"), (LeafId.C, "u2"),
            (LeafId.B, "t3")] (none, none)).1).count Event.before = 1
      ∧ (sideEvents LeafId.B (runInter [({"t1", "t2", "t3"} : Finset String), ∅]
          [({"u1", "u2"} : Finset String)] 1 1 (fun _ _ => true)
          [(LeafId.B, "t1"), (LeafId.C, "u1"), (LeafId.B, "t2"), (LeafId.C, "u2"),
            (LeafId.B, "t3")] (none, none)).1).count Event.after = 1)
    ∧ ((sideEvents LeafId.C (runInter [({"t1", "t2", "t3"} : Finset String), ∅]
          [({"u1", "u2"} : Finset String)] 1 1 (fun _ _ => true)
          [(LeafId.B, "t1"), (LeafId.C, "u1"), (LeafId.B, "t2"), (LeafId.C, "u2"),
            (LeafId.B, "t3")] (none, none)).1).count Event.before = 1
      ∧ (sideEvents LeafId.C (runInter [({"t1", "t2", "t3"} : Finset String), ∅]
          [({"u1", "u2"} : Finset String)] 1 1 (fun _ _ => true)
          [(LeafId.B, "t1"), (LeafId.C, "u1"), (LeafId.B, "t2"), (LeafId.C, "u2"),
            (LeafId.B, "t3")] (none, none)).1).count Event.after = 1)
    ∧ (runInter [({"t1", "t2", "t3"} : Finset String), ∅] [({"u1", "u2"} : Finset String)]
        1 1 (fun _ _ => true)
        [(LeafId.B, "t1"), (LeafId.C, "u1"), (LeafId.B, "t2"), (LeafId.C, "u2"),
          (LeafId.B, "t3")] (none, none)).2 = (none, none) :=
  C7_sibling_leaf_isolation {"t1", "t2", "t3"} {"u1", "u2"} [∅] [] 1 1 (by decide) (by decide)
    (fun _ _ => true)
    [(LeafId.B, "t1"), (LeafId.C, "u1"), (LeafId.B, "t2"), (LeafId.C, "u2"), (LeafId.B, "t3")]
    (by decide) (by decide) (by decide) (by decide) (by decide) (by decide)

/-- C8: after a complete run of a leaf class's tests the sentinel is reset, so
a fresh run of the same leaf class's tests starts from the sentinel again: its
first wrapped `setUp` repopulates the remaining set with the leaf's visible
test names and fires the before-class hook again (exactly once, as the first
event of the new run). -/
theorem C8_sentinel_reset_allows_rerun (t : Finset String) (rest : List (Finset String))
    (tearK testK : Nat) (htear : 1 ≤ tearK) (htest : 1 ≤ testK)
    (bodyOk1 bodyOk2 : String → Bool) (order1 order2 : List String)
    (h1ne : order1 ≠ []) (h1nd : order1.Nodup) (h1ts : order1.toFinset = t)
    (h2ne : order2 ≠ []) (h2nd : order2.Nodup) (h2ts : order2.toFinset = t) :
    (runTests (t :: rest) tearK testK bodyOk1 order1 none).2 = none
    ∧ (setUpChain true (t :: rest) true
        ((runTests (t :: rest) tearK testK bodyOk1 order1 none).2)).2.1 = some t
    ∧ (runTests (t :: rest) tearK testK bodyOk2 order2
        ((runTests (t :: rest) tearK testK bodyOk1 order1 none).2)).1.count Event.before = 1
    ∧ (runTests (t :: rest) tearK testK bodyOk2 order2
        ((runTests (t :: rest) tearK testK bodyOk1 order1 none).2)).1.head? =
        some Event.before := by
  have h1 := runTests_from_sentinel t rest tearK testK htear htest bodyOk1 order1 h1ne h1nd h1ts
  have h2 := runTests_from_sentinel t rest tearK testK htear htest bodyOk2 order2 h2ne h2nd h2ts
  rw [h1]
  dsimp only
  refine ⟨rfl, ?_, ?_, ?_⟩
  · rw [setUpChain_none]
    simp
  · rw [h2]
    simp [List.count_cons, drainTrace_count_before]
  · rw [h2]
    rfl

theorem C8_sentinel_reset_allows_rerun_witness :
    (runTests [({"tA", "tB"} : Finset String)] 1 1 (fun _ => true) ["tA", "tB"] none).2 = none
    ∧ (setUpChain true [({"tA", "tB"} : Finset String)] true
        ((runTests [({"tA", "tB"} : Finset String)] 1 1 (fun _ => true) ["tA", "tB"]
          none).2)).2.1 = some ({"tA", "tB"} : Finset String)
    ∧ (runTests [({"tA", "tB"} : Finset String)] 1 1 (fun _ => false) ["tB", "tA"]
        ((runTests [({"tA", "tB"} : Finset String)] 1 1 (fun _ => true) ["tA", "tB"]
          none).2)).1.count Event.before = 1
    ∧ (runTests [({"tA", "tB"} : Finset String)] 1 1 (fun _ => false) ["tB", "tA"]
        ((runTests [({"tA", "tB"} : Finset String)] 1 1 (fun _ => true) ["tA", "tB"]
          none).2)).1.head? = some Event.before :=
  C8_sentinel_reset_allows_rerun {"tA", "tB"} [] 1 1 (by decide) (by decide)
    (fun _ => true) (fun _ => false) ["tA", "tB"] ["tB", "tA"]
    (by decide) (by decide) (by decide) (by decide) (by decide) (by decide)

/-- C9: invoking a wrapped test method while the leaf class's remaining set is
still the sentinel raises (the `discard` call on `None` fails with an
`AttributeError`) without running the original test body: no event is emitted
and the error propagates.  A wrapped `setUp` for the leaf class must have
initialized the set first. -/
theorem C9_test_method_needs_initialized_set (k : Nat) (hk : 1 ≤ k) (test_name : String)
    (bodyOk : Bool) :
    testChain test_name k bodyOk none = ([], none, false) := by
  obtain ⟨m, rfl⟩ : ∃ m, k = m + 1 := ⟨k - 1, by omega⟩
  rfl

theorem C9_test_method_needs_initialized_set_witness :
    testChain "testFoo" 1 true none = ([], none, false) :=
  C9_test_method_needs_initialized_set 1 (by decide) "testFoo" true

/-- C10: `SetMethod` installs the replacement behavior but copies `__name__`,
`__doc__` and `__module__` from the replaced method, so the identifying
metadata of every attribute of an instrumented class is identical before and
after instrumentation. -/
theorem C10_SetMethod_preserves_metadata (cls : String → Method) (method_name : String)
    (replacement : Action) (attr : String) :
    ((SetMethod cls method_name replacement) attr).meta = (cls attr).meta := by
  simp only [SetMethod]
  by_cases h : attr = method_name
  · simp [h]
  · simp [h]

end Basetest
